import Mathlib

/-!
Verification of the Direct_Skip property-CSV pipeline (`app.py`).

The development shallowly embeds the four core components of the source:

* `deduplicate_dataframe` — composite-key deduplication (`app.py` lines 22-60),
* `process_csv` / `mapColumns` — column mapping plus reference-code tagging
  (`app.py` lines 62-91),
* `generate_output_filename` — date-stamped filename generation
  (`app.py` lines 93-114),
* `validate_input_file` / `missing_columns` — input validation
  (`app.py` lines 116-133).

A pandas `DataFrame` is modelled as an ordered list of column names together
with rows of optional string cells (`none` models `NaN`).  String operations
model the ASCII fragment of Python's `str.strip` / `str.upper` semantics,
which is the fragment exercised by the column data the pipeline handles.
-/

/-- The Python whitespace characters stripped by `str.strip()`. -/
def pyWhitespace (c : Char) : Bool :=
  c == ' ' || c == '\t' || c == '\n' || c == '\r' || c == '\x0b' || c == '\x0c'

/-- ASCII uppercasing of a single character, modelling `str.upper()` on the
ASCII fragment. -/
def upperChar (c : Char) : Char :=
  if c = 'a' then 'A' else if c = 'b' then 'B' else if c = 'c' then 'C'
  else if c = 'd' then 'D' else if c = 'e' then 'E' else if c = 'f' then 'F'
  else if c = 'g' then 'G' else if c = 'h' then 'H' else if c = 'i' then 'I'
  else if c = 'j' then 'J' else if c = 'k' then 'K' else if c = 'l' then 'L'
  else if c = 'm' then 'M' else if c = 'n' then 'N' else if c = 'o' then 'O'
  else if c = 'p' then 'P' else if c = 'q' then 'Q' else if c = 'r' then 'R'
  else if c = 's' then 'S' else if c = 't' then 'T' else if c = 'u' then 'U'
  else if c = 'v' then 'V' else if c = 'w' then 'W' else if c = 'x' then 'X'
  else if c = 'y' then 'Y' else if c = 'z' then 'Z' else c

/-- `str.upper()` (pandas `.str.upper()`), ASCII model. -/
def pyUpper (s : String) : String := ⟨s.data.map upperChar⟩

/-- Remove leading and trailing whitespace from a character list. -/
def trimChars (cs : List Char) : List Char :=
  ((cs.dropWhile pyWhitespace).reverse.dropWhile pyWhitespace).reverse

/-- `str.strip()` (pandas `.str.strip()`). -/
def pyStrip (s : String) : String := ⟨trimChars s.data⟩

/-- The characters removed by `re.sub(r'[<>:"/\\|?*]', '', ...)` in
`generate_output_filename`. -/
def illegalFilenameChar (c : Char) : Bool :=
  c == '<' || c == '>' || c == ':' || c == '"' || c == '/' ||
  c == '\\' || c == '|' || c == '?' || c == '*'

/-- `re.sub(r'[<>:"/\\|?*]', '', s)`: every illegal character is deleted. -/
def stripIllegal (s : String) : String :=
  ⟨s.data.filter (fun c => !(illegalFilenameChar c))⟩

/-- `s.replace(' ', '_')`: every space becomes an underscore. -/
def replaceSpaces (s : String) : String :=
  ⟨s.data.map (fun c => if c == ' ' then '_' else c)⟩

/-- `generate_output_filename` (`app.py` lines 93-114).  `datetime.now()` is
modelled by passing the already formatted `YYYYMMDD` date stamp as the
`date_str` parameter; the rest follows the source line by line.  The source
tests truthiness of the ORIGINAL reference code, not of the sanitized one. -/
def generate_output_filename (date_str : String) (property_ref_code : String) : String :=
  if property_ref_code = "" then
    date_str ++ "_DirectSkip_Import.csv"
  else
    date_str ++ "_" ++ replaceSpaces (stripIllegal property_ref_code) ++ "_DirectSkip_Import.csv"

/-- A pandas `DataFrame`: ordered column names and rows of cells, where a cell
`none` models `NaN` and `some s` a string value. -/
structure DF where
  cols : List String
  rows : List (List (Option String))
deriving DecidableEq

/-- Position of a column label, modelling pandas label lookup. -/
def findCol (cols : List String) (name : String) : Option Nat :=
  match cols with
  | [] => none
  | c :: cs => if c = name then some 0 else (findCol cs name).map (· + 1)

/-- `row[name]` for a row of optional cells. -/
def getCell (cols : List String) (row : List (Option String)) (name : String) :
    Option String :=
  ((findCol cols name).bind (fun i => row[i]?)).getD none

/-- `row[name]` for a row whose `NaN`s have been filled with strings. -/
def getStr (cols : List String) (row : List String) (name : String) : String :=
  ((findCol cols name).bind (fun i => row[i]?)).getD ""

/-- `df.fillna('')` on one row: every `NaN` cell becomes the empty string. -/
def cleanRow (r : List (Option String)) : List String :=
  r.map (fun c => c.getD "")

/-- `.str.strip().str.upper()` — the per-field normalization used for the
dedup key columns (`app.py` lines 43-48). -/
def normField (s : String) : String := pyUpper (pyStrip s)

/-- The `_dedup_owner` key of a (filled) row (`app.py` lines 43-44). -/
def ownerKeyRow (cols : List String) (row : List String) : String :=
  pyStrip (normField (getStr cols row "First Name") ++ " " ++
           normField (getStr cols row "Last Name"))

/-- The `_dedup_mailing` key of a (filled) row (`app.py` lines 46-48). -/
def mailingKeyRow (cols : List String) (row : List String) : String :=
  pyStrip (normField (getStr cols row "Mailing Address") ++ " " ++
           normField (getStr cols row "Mailing City") ++ " " ++
           normField (getStr cols row "Mailing State"))

/-- The composite dedup key of a (filled) row. -/
def rowKey (cols : List String) (row : List String) : String × String :=
  (ownerKeyRow cols row, mailingKeyRow cols row)

/-- `df[name] = vals` on a frame of filled rows: pandas overwrites the column
in place when the label already exists and appends a new column otherwise. -/
def setCol (cols : List String) (rows : List (List String)) (name : String)
    (vals : List String) : List String × List (List String) :=
  match findCol cols name with
  | some i => (cols, List.zipWith (fun r v => r.set i v) rows vals)
  | none => (cols ++ [name], List.zipWith (fun r v => r ++ [v]) rows vals)

/-- `df.drop(columns=[name])` for a single label. -/
def dropCol (cols : List String) (rows : List (List String)) (name : String) :
    List String × List (List String) :=
  match findCol cols name with
  | some i => (cols.eraseIdx i, rows.map (fun r => r.eraseIdx i))
  | none => (cols, rows)

/-- `drop_duplicates(keep='first')` generalized over a key function: scan in
order, keep a row iff its key has not been seen before. -/
def dedupBy {α β : Type} [DecidableEq β] (key : α → β) :
    List α → List β → List α
  | [], _ => []
  | a :: as, seen =>
    if key a ∈ seen then dedupBy key as seen
    else a :: dedupBy key as (key a :: seen)

/-- `deduplicate_dataframe` (`app.py` lines 22-60): fill `NaN`s, materialize
the two temporary key columns, drop duplicate key pairs keeping the first
occurrence, drop the temporary columns, and report `initial - final` as the
number of duplicates removed. -/
def deduplicate_dataframe (df : DF) : DF × Nat :=
  let initial_count := df.rows.length
  let cleanRows := df.rows.map cleanRow
  let p1 := setCol df.cols cleanRows "_dedup_owner"
              (cleanRows.map (ownerKeyRow df.cols))
  let p2 := setCol p1.1 p1.2 "_dedup_mailing" (p1.2.map (mailingKeyRow p1.1))
  let dedupedRows := dedupBy
      (fun r => (getStr p2.1 r "_dedup_owner", getStr p2.1 r "_dedup_mailing"))
      p2.2 []
  let p3 := dropCol p2.1 dedupedRows "_dedup_owner"
  let p4 := dropCol p3.1 p3.2 "_dedup_mailing"
  (⟨p4.1, p4.2.map (fun r => r.map some)⟩, initial_count - p4.2.length)

/-- `COLUMN_MAPPING` (`app.py` lines 9-20), in its declared order. -/
def COLUMN_MAPPING : List (String × String) :=
  [("OWNER_1_FIRST", "First Name"),
   ("OWNER_1_LAST", "Last Name"),
   ("OWNER_ADDRESS", "Mailing Address"),
   ("OWNER_CITY", "Mailing City"),
   ("OWNER_STATE", "Mailing State"),
   ("OWNER_ZIP", "Mailing Zip"),
   ("PROP_ADDRESS", "Property Address"),
   ("PROP_CITY", "Property City"),
   ("PROP_STATE", "Property State"),
   ("PROP_ZIP", "Property Zip")]

/-- The mapping stage of `process_csv` (`app.py` lines 74-86).  `mapped_df`
starts as `pd.DataFrame()`; pandas fixes the frame's index at the FIRST
column assignment.  If the first mapping source (`OWNER_1_FIRST`) is present,
that assignment is a Series assignment and the index becomes the input's,
so every later column (Series or broadcast scalar) has one value per input
row.  If it is absent, the scalar assignment `mapped_df[target] = ""` to the
empty frame fixes an EMPTY index, and every later Series assignment aligns
to that empty index — the mapped frame then has zero rows. -/
def mapColumns (df : DF) (code : String) : DF :=
  let keptRows :=
    match COLUMN_MAPPING with
    | [] => df.rows
    | (src, _) :: _ => if src ∈ df.cols then df.rows else []
  ⟨COLUMN_MAPPING.map (fun p => p.2) ++ ["Custom Field 1"],
   keptRows.map (fun r =>
     COLUMN_MAPPING.map
       (fun p => if p.1 ∈ df.cols then getCell df.cols r p.1 else some "") ++
     [some code])⟩

/-- `process_csv` (`app.py` lines 62-91): map the columns, tag every record
with the reference code, then deduplicate. -/
def process_csv (df : DF) (code : String) : DF × Nat :=
  deduplicate_dataframe (mapColumns df code)

/-- The `missing_columns` list computed by `validate_input_file`
(`app.py` lines 126-127). -/
def missing_columns (df : DF) : List String :=
  (COLUMN_MAPPING.map (fun p => p.1)).filter (fun c => !(df.cols.contains c))

/-- `validate_input_file` (`app.py` lines 116-133): valid iff no expected
column is missing. -/
def validate_input_file (df : DF) : Bool :=
  (missing_columns df).isEmpty

/-- The well-formedness a frame must satisfy for `deduplicate_dataframe` to
run without a pandas `KeyError` and without clobbering a pre-existing column:
rectangular rows, the five key columns present, and the two temporary labels
fresh.  The mapped frames produced by `process_csv` always satisfy it. -/
def dedupReady (df : DF) : Prop :=
  (∀ r ∈ df.rows, r.length = df.cols.length) ∧
  "First Name" ∈ df.cols ∧ "Last Name" ∈ df.cols ∧
  "Mailing Address" ∈ df.cols ∧ "Mailing City" ∈ df.cols ∧
  "Mailing State" ∈ df.cols ∧
  "_dedup_owner" ∉ df.cols ∧ "_dedup_mailing" ∉ df.cols

instance (df : DF) : Decidable (dedupReady df) := by
  unfold dedupReady; infer_instance

/-- Modelled from the spec (section 4.3, Grouping): scan records in original
order; for each composite key, keep only the first record encountered with
that key; drop every subsequent record sharing that key. -/
def specDedup {α β : Type} [DecidableEq β] (key : α → β) : List α → List α
  | [] => []
  | a :: as => a :: specDedup key (as.filter (fun b => decide (key b ≠ key a)))
termination_by l => l.length
decreasing_by
  simp only [List.length_cons]
  exact Nat.lt_succ_of_le (List.length_filter_le _ _)

/-- Modelled from the spec (section 4.3, key construction, step 2):
`ownerKey = trim(uppercase(firstNameField)) + " " + trim(uppercase(lastNameField))`,
then trim the result. -/
def specOwnerKey (firstName lastName : String) : String :=
  pyStrip (pyStrip (pyUpper firstName) ++ " " ++ pyStrip (pyUpper lastName))

/-- Modelled from the spec (section 4.3, key construction, step 3):
`mailingKey` from mailing address, city and state, joined by single spaces,
then trim the result. -/
def specMailingKey (addr city state : String) : String :=
  pyStrip (pyStrip (pyUpper addr) ++ " " ++ pyStrip (pyUpper city) ++ " " ++
           pyStrip (pyUpper state))


/-- The fully augmented row produced by the two temporary-column assignments. -/
def augRow (cols : List String) (r : List String) : List String :=
  (r ++ [ownerKeyRow cols r]) ++ [mailingKeyRow cols r]

/-- Concrete frame with one duplicate used to witness C1. -/
def dfW1 : DF :=
  ⟨["First Name", "Last Name", "Mailing Address", "Mailing City", "Mailing State"],
   [[some "Ann", some "Lee", some "1 St", some "X", some "TX"],
    [some " ann", some "LEE ", some "1 st", some "x", none],
    [some "ann ", some "LEE", some "1 St ", some " x", some "tx"]]⟩

/-- Concrete frame used to witness C5. -/
def dfW5 : DF :=
  ⟨["First Name", "Last Name", "Mailing Address", "Mailing City", "Mailing State"],
   [[some "Jo", some "King", some "2 Elm", some "Y", some "OK"],
    [some "JO ", some "king", some " 2 elm", some "y ", some "ok"],
    [some "Pat", none, some "2 Elm", some "Y", some "OK"]]⟩

/-- Concrete frame used to witness C10. -/
def dfW10 : DF :=
  ⟨["First Name", "Last Name", "Mailing Address", "Mailing City",
    "Mailing State", "Note"],
   [[some "Sam", some "Oak", none, some "Z", some "NM", none],
    [some "Sam", some "Oak", none, some "Z", some "NM", some "extra"]]⟩

/-! ### Helper lemmas: characters and strings -/

theorem pyWhitespace_upperChar (c : Char) :
    pyWhitespace (upperChar c) = pyWhitespace c := by
  by_cases h0 : c = 'a'
  · subst h0; decide
  by_cases h1 : c = 'b'
  · subst h1; decide
  by_cases h2 : c = 'c'
  · subst h2; decide
  by_cases h3 : c = 'd'
  · subst h3; decide
  by_cases h4 : c = 'e'
  · subst h4; decide
  by_cases h5 : c = 'f'
  · subst h5; decide
  by_cases h6 : c = 'g'
  · subst h6; decide
  by_cases h7 : c = 'h'
  · subst h7; decide
  by_cases h8 : c = 'i'
  · subst h8; decide
  by_cases h9 : c = 'j'
  · subst h9; decide
  by_cases h10 : c = 'k'
  · subst h10; decide
  by_cases h11 : c = 'l'
  · subst h11; decide
  by_cases h12 : c = 'm'
  · subst h12; decide
  by_cases h13 : c = 'n'
  · subst h13; decide
  by_cases h14 : c = 'o'
  · subst h14; decide
  by_cases h15 : c = 'p'
  · subst h15; decide
  by_cases h16 : c = 'q'
  · subst h16; decide
  by_cases h17 : c = 'r'
  · subst h17; decide
  by_cases h18 : c = 's'
  · subst h18; decide
  by_cases h19 : c = 't'
  · subst h19; decide
  by_cases h20 : c = 'u'
  · subst h20; decide
  by_cases h21 : c = 'v'
  · subst h21; decide
  by_cases h22 : c = 'w'
  · subst h22; decide
  by_cases h23 : c = 'x'
  · subst h23; decide
  by_cases h24 : c = 'y'
  · subst h24; decide
  by_cases h25 : c = 'z'
  · subst h25; decide
  have hid : upperChar c = c := by
    simp only [upperChar, if_neg h0, if_neg h1, if_neg h2, if_neg h3, if_neg h4, if_neg h5, if_neg h6, if_neg h7, if_neg h8, if_neg h9, if_neg h10, if_neg h11, if_neg h12, if_neg h13, if_neg h14, if_neg h15, if_neg h16, if_neg h17, if_neg h18, if_neg h19, if_neg h20, if_neg h21, if_neg h22, if_neg h23, if_neg h24, if_neg h25]
  rw [hid]

theorem trimChars_map_upperChar (cs : List Char) :
    trimChars (cs.map upperChar) = (trimChars cs).map upperChar := by
  have hps : pyWhitespace ∘ upperChar = pyWhitespace := funext pyWhitespace_upperChar
  unfold trimChars
  rw [List.dropWhile_map, hps, ← List.map_reverse, List.dropWhile_map, hps,
    ← List.map_reverse]

theorem pyStrip_pyUpper (s : String) : pyStrip (pyUpper s) = normField s :=
  congrArg String.mk (trimChars_map_upperChar s.data)

/-! ### Helper lemmas: column lookup -/

theorem findCol_eq_none {cols : List String} {name : String} (h : name ∉ cols) :
    findCol cols name = none := by
  induction cols with
  | nil => rfl
  | cons c cs ih =>
    simp only [List.mem_cons, not_or] at h
    have hc : ¬c = name := fun hc => h.1 hc.symm
    simp only [findCol, if_neg hc, ih h.2, Option.map_none']

theorem findCol_append_left {l₁ : List String} {name : String} {i : Nat}
    (h : findCol l₁ name = some i) (l₂ : List String) :
    findCol (l₁ ++ l₂) name = some i := by
  induction l₁ generalizing i with
  | nil => simp [findCol] at h
  | cons c cs ih =>
    simp only [findCol, List.cons_append, List.append_eq] at h ⊢
    by_cases hc : c = name
    · rwa [if_pos hc] at h ⊢
    · rw [if_neg hc] at h ⊢
      obtain ⟨j, hj, rfl⟩ := Option.map_eq_some'.mp h
      rw [ih hj]
      rfl

theorem findCol_append_none {l₁ : List String} {name : String}
    (h : findCol l₁ name = none) (l₂ : List String) :
    findCol (l₁ ++ l₂) name = (findCol l₂ name).map (· + l₁.length) := by
  induction l₁ with
  | nil => simp
  | cons c cs ih =>
    simp only [findCol, List.cons_append, List.append_eq] at h ⊢
    by_cases hc : c = name
    · rw [if_pos hc] at h; exact absurd h (by simp)
    · rw [if_neg hc] at h ⊢
      have hcs : findCol cs name = none := by
        cases hfc : findCol cs name with
        | none => rfl
        | some j => rw [hfc] at h; simp at h
      rw [ih hcs, Option.map_map]
      simp only [List.length_cons]
      cases findCol l₂ name with
      | none => rfl
      | some j => simp [Function.comp, Nat.add_assoc, Nat.add_comm 1]

theorem findCol_lt_length {cols : List String} {name : String} {i : Nat}
    (h : findCol cols name = some i) : i < cols.length := by
  induction cols generalizing i with
  | nil => simp [findCol] at h
  | cons c cs ih =>
    simp only [findCol] at h
    by_cases hc : c = name
    · rw [if_pos hc] at h
      cases h
      simp
    · rw [if_neg hc] at h
      obtain ⟨j, hj, rfl⟩ := Option.map_eq_some'.mp h
      simpa using Nat.succ_lt_succ (ih hj)

theorem findCol_concat_self {cols : List String} {name : String}
    (h : name ∉ cols) : findCol (cols ++ [name]) name = some cols.length := by
  rw [findCol_append_none (findCol_eq_none h)]
  simp [findCol]

/-! ### Helper lemmas: row access -/

theorem getStr_append_of_ne {cols : List String} {row : List String}
    {name a v : String} (hlen : row.length = cols.length) (hne : name ≠ a) :
    getStr (cols ++ [a]) (row ++ [v]) name = getStr cols row name := by
  unfold getStr
  cases hfc : findCol cols name with
  | some i =>
    rw [findCol_append_left hfc]
    have hi : i < row.length := hlen ▸ findCol_lt_length hfc
    simp only [Option.some_bind]
    rw [List.getElem?_append_left hi]
  | none =>
    rw [findCol_append_none hfc, findCol_eq_none (by simp [hne])]
    rfl

theorem getStr_concat_self {cols : List String} {row : List String}
    {a v : String} (h : a ∉ cols) (hlen : row.length = cols.length) :
    getStr (cols ++ [a]) (row ++ [v]) a = v := by
  unfold getStr
  rw [findCol_concat_self h]
  simp only [Option.some_bind]
  rw [← hlen, List.getElem?_concat_length]
  rfl

theorem getStr_cleanRow (cols : List String) (r : List (Option String))
    (name : String) :
    getStr cols (cleanRow r) name = (getCell cols r name).getD "" := by
  unfold getStr getCell cleanRow
  cases hfc : findCol cols name with
  | some i =>
    simp only [Option.some_bind, List.getElem?_map]
    cases r[i]? <;> rfl
  | none => rfl

/-! ### Helper lemmas: zipWith over maps -/

theorem zipWith_self_map {α β γ : Type} (g : α → β → γ) (f : α → β)
    (l : List α) : List.zipWith g l (l.map f) = l.map (fun a => g a (f a)) := by
  induction l with
  | nil => rfl
  | cons a as ih => simp [ih]

theorem zipWith_map_same {α β γ δ : Type} (g : β → γ → δ) (f₁ : α → β)
    (f₂ : α → γ) (l : List α) :
    List.zipWith g (l.map f₁) (l.map f₂) = l.map (fun a => g (f₁ a) (f₂ a)) := by
  induction l with
  | nil => rfl
  | cons a as ih => simp [ih]

/-! ### Helper lemmas: dedupBy -/

theorem dedupBy_sublist {α β : Type} [DecidableEq β] (key : α → β) :
    ∀ (l : List α) (seen : List β), List.Sublist (dedupBy key l seen) l := by
  intro l
  induction l with
  | nil => intro seen; exact List.Sublist.refl _
  | cons a as ih =>
    intro seen
    unfold dedupBy
    by_cases h : key a ∈ seen
    · rw [if_pos h]
      exact List.Sublist.cons a (ih seen)
    · rw [if_neg h]
      exact List.Sublist.cons₂ a (ih (key a :: seen))

theorem dedupBy_mem {α β : Type} [DecidableEq β] {key : α → β} {l : List α}
    {seen : List β} {a : α} (h : a ∈ dedupBy key l seen) : a ∈ l :=
  (dedupBy_sublist key l seen).mem h

theorem dedupBy_map_congr {α γ β : Type} [DecidableEq β] {k1 : α → β}
    {k2 : γ → β} {f : α → γ} {l : List α} (hk : ∀ a ∈ l, k2 (f a) = k1 a) :
    ∀ seen, dedupBy k2 (l.map f) seen = (dedupBy k1 l seen).map f := by
  induction l with
  | nil => intro seen; rfl
  | cons a as ih =>
    intro seen
    have ha : k2 (f a) = k1 a := hk a (List.mem_cons_self a as)
    have has : ∀ b ∈ as, k2 (f b) = k1 b :=
      fun b hb => hk b (List.mem_cons_of_mem a hb)
    simp only [List.map_cons]
    unfold dedupBy
    rw [ha]
    by_cases h : k1 a ∈ seen
    · rw [if_pos h, if_pos h, ih has]
    · rw [if_neg h, if_neg h, ih has, List.map_cons]

theorem dedupBy_pairwise_and_unseen {α β : Type} [DecidableEq β] (key : α → β) :
    ∀ (l : List α) (seen : List β),
      (dedupBy key l seen).Pairwise (fun a b => key a ≠ key b) ∧
      ∀ a ∈ dedupBy key l seen, key a ∉ seen := by
  intro l
  induction l with
  | nil => intro seen; exact ⟨List.Pairwise.nil, by simp [dedupBy]⟩
  | cons a as ih =>
    intro seen
    unfold dedupBy
    by_cases h : key a ∈ seen
    · rw [if_pos h]; exact ih seen
    · rw [if_neg h]
      obtain ⟨hp, hu⟩ := ih (key a :: seen)
      refine ⟨List.Pairwise.cons ?_ hp, ?_⟩
      · intro b hb
        have hbu := hu b hb
        simp only [List.mem_cons, not_or] at hbu
        exact fun hab => hbu.1 hab.symm
      · intro b hb
        rcases List.mem_cons.mp hb with rfl | hb2
        · exact h
        · have hbu := hu b hb2
          simp only [List.mem_cons, not_or] at hbu
          exact hbu.2

theorem dedupBy_of_pairwise {α β : Type} [DecidableEq β] {key : α → β} :
    ∀ {l : List α} {seen : List β},
      l.Pairwise (fun a b => key a ≠ key b) → (∀ a ∈ l, key a ∉ seen) →
      dedupBy key l seen = l := by
  intro l
  induction l with
  | nil => intro seen _ _; rfl
  | cons a as ih =>
    intro seen hp hs
    unfold dedupBy
    rw [if_neg (hs a (List.mem_cons_self a as))]
    congr 1
    apply ih (List.Pairwise.of_cons hp)
    intro b hb
    simp only [List.mem_cons, not_or]
    refine ⟨fun hba => (List.rel_of_pairwise_cons hp hb) hba.symm, hs b (List.mem_cons_of_mem a hb)⟩

theorem dedupBy_eq_specDedup_filter {α β : Type} [DecidableEq β] (key : α → β) :
    ∀ (l : List α) (seen : List β),
      dedupBy key l seen =
        specDedup key (l.filter (fun a => decide (key a ∉ seen))) := by
  intro l
  induction l with
  | nil => intro seen; simp [dedupBy, specDedup]
  | cons a as ih =>
    intro seen
    unfold dedupBy
    by_cases h : key a ∈ seen
    · rw [if_pos h, List.filter_cons_of_neg (by simp [h]), ih seen]
    · rw [if_neg h, List.filter_cons_of_pos (by simpa using h), ih (key a :: seen)]
      conv_rhs => rw [specDedup]
      rw [List.filter_filter]
      have hfe : List.filter (fun b => decide (key b ∉ key a :: seen)) as =
          List.filter (fun b => decide (key b ≠ key a) && decide (key b ∉ seen)) as := by
        apply List.filter_congr
        intro b _
        rw [← Bool.decide_and, decide_eq_decide]
        simp [not_or]
      rw [hfe]

theorem dedupBy_eq_specDedup {α β : Type} [DecidableEq β] (key : α → β)
    (l : List α) : dedupBy key l [] = specDedup key l := by
  rw [dedupBy_eq_specDedup_filter]
  congr 1
  apply List.filter_eq_self.mpr
  intro a _
  simp

/-! ### Helper lemmas: setCol / dropCol branches -/

theorem setCol_fresh {cols : List String} {rows : List (List String)}
    {name : String} {vals : List String} (h : name ∉ cols) :
    setCol cols rows name vals =
      (cols ++ [name], List.zipWith (fun r v => r ++ [v]) rows vals) := by
  unfold setCol
  rw [findCol_eq_none h]

theorem dropCol_some {cols : List String} {rows : List (List String)}
    {name : String} {i : Nat} (h : findCol cols name = some i) :
    dropCol cols rows name =
      (cols.eraseIdx i, rows.map (fun r => r.eraseIdx i)) := by
  unfold dropCol
  rw [h]

theorem eraseIdx_append_self {α : Type} (l₁ l₂ : List α) :
    (l₁ ++ l₂).eraseIdx l₁.length = l₁ ++ l₂.eraseIdx 0 := by
  rw [List.eraseIdx_append_of_length_le (Nat.le_refl _), Nat.sub_self]

theorem dedup_model (df : DF)
    (hwf : ∀ r ∈ df.rows, r.length = df.cols.length)
    (ho : "_dedup_owner" ∉ df.cols) (hm : "_dedup_mailing" ∉ df.cols) :
    deduplicate_dataframe df =
      (⟨df.cols,
        (dedupBy (rowKey df.cols) (df.rows.map cleanRow) []).map
          (fun r => r.map some)⟩,
       df.rows.length -
        (dedupBy (rowKey df.cols) (df.rows.map cleanRow) []).length) := by
  have hCwf : ∀ r ∈ df.rows.map cleanRow, r.length = df.cols.length := by
    intro r hr
    obtain ⟨r0, hr0, rfl⟩ := List.mem_map.mp hr
    simpa [cleanRow] using hwf r0 hr0
  have hm2 : "_dedup_mailing" ∉ df.cols ++ ["_dedup_owner"] := by
    simp only [List.mem_append, List.mem_singleton, not_or]
    exact ⟨hm, by decide⟩
  have e1 : setCol df.cols (df.rows.map cleanRow) "_dedup_owner"
      ((df.rows.map cleanRow).map (ownerKeyRow df.cols)) =
      (df.cols ++ ["_dedup_owner"],
       (df.rows.map cleanRow).map (fun r => r ++ [ownerKeyRow df.cols r])) := by
    rw [setCol_fresh ho, zipWith_self_map]
  have e2 : setCol (df.cols ++ ["_dedup_owner"])
      ((df.rows.map cleanRow).map (fun r => r ++ [ownerKeyRow df.cols r]))
      "_dedup_mailing"
      (((df.rows.map cleanRow).map (fun r => r ++ [ownerKeyRow df.cols r])).map
        (mailingKeyRow (df.cols ++ ["_dedup_owner"]))) =
      ((df.cols ++ ["_dedup_owner"]) ++ ["_dedup_mailing"],
       (df.rows.map cleanRow).map (augRow df.cols)) := by
    rw [setCol_fresh hm2]
    simp only [List.map_map]
    rw [zipWith_map_same]
    refine congrArg (Prod.mk _) ?_
    apply List.map_congr_left
    intro a ha
    have hlen : (cleanRow a).length = df.cols.length := by
      simpa [cleanRow] using hwf a ha
    have hmk : mailingKeyRow (df.cols ++ ["_dedup_owner"])
        (cleanRow a ++ [ownerKeyRow df.cols (cleanRow a)]) =
        mailingKeyRow df.cols (cleanRow a) := by
      unfold mailingKeyRow
      rw [getStr_append_of_ne hlen (by decide), getStr_append_of_ne hlen (by decide),
        getStr_append_of_ne hlen (by decide)]
    simp only [Function.comp, augRow]
    rw [hmk]
  have hkey : ∀ r ∈ df.rows.map cleanRow,
      (getStr ((df.cols ++ ["_dedup_owner"]) ++ ["_dedup_mailing"]) (augRow df.cols r)
        "_dedup_owner",
       getStr ((df.cols ++ ["_dedup_owner"]) ++ ["_dedup_mailing"]) (augRow df.cols r)
        "_dedup_mailing") = rowKey df.cols r := by
    intro r hr
    have hlen := hCwf r hr
    have hlen1 : (r ++ [ownerKeyRow df.cols r]).length =
        (df.cols ++ ["_dedup_owner"]).length := by simp [hlen]
    unfold augRow rowKey
    rw [getStr_append_of_ne hlen1 (by decide), getStr_concat_self ho hlen,
      getStr_concat_self hm2 hlen1]
  have e3 : dedupBy (fun r =>
      (getStr ((df.cols ++ ["_dedup_owner"]) ++ ["_dedup_mailing"]) r "_dedup_owner",
       getStr ((df.cols ++ ["_dedup_owner"]) ++ ["_dedup_mailing"]) r "_dedup_mailing"))
      ((df.rows.map cleanRow).map (augRow df.cols)) [] =
      (dedupBy (rowKey df.cols) (df.rows.map cleanRow) []).map (augRow df.cols) :=
    dedupBy_map_congr hkey []
  have hD : ∀ r ∈ dedupBy (rowKey df.cols) (df.rows.map cleanRow) [],
      r.length = df.cols.length :=
    fun r hr => hCwf r (dedupBy_mem hr)
  have e4 : dropCol ((df.cols ++ ["_dedup_owner"]) ++ ["_dedup_mailing"])
      ((dedupBy (rowKey df.cols) (df.rows.map cleanRow) []).map (augRow df.cols))
      "_dedup_owner" =
      (df.cols ++ ["_dedup_mailing"],
       (dedupBy (rowKey df.cols) (df.rows.map cleanRow) []).map
         (fun r => r ++ [mailingKeyRow df.cols r])) := by
    have hfo : findCol ((df.cols ++ ["_dedup_owner"]) ++ ["_dedup_mailing"])
        "_dedup_owner" = some df.cols.length :=
      findCol_append_left (findCol_concat_self ho) _
    rw [dropCol_some hfo]
    congr 1
    · rw [List.append_assoc, eraseIdx_append_self]
      rfl
    · rw [List.map_map]
      apply List.map_congr_left
      intro r hr
      have hlen := hD r hr
      simp only [Function.comp, augRow]
      rw [List.append_assoc, ← hlen, eraseIdx_append_self]
      rfl
  have e5 : dropCol (df.cols ++ ["_dedup_mailing"])
      ((dedupBy (rowKey df.cols) (df.rows.map cleanRow) []).map
        (fun r => r ++ [mailingKeyRow df.cols r])) "_dedup_mailing" =
      (df.cols, dedupBy (rowKey df.cols) (df.rows.map cleanRow) []) := by
    rw [dropCol_some (findCol_concat_self hm)]
    congr 1
    · rw [eraseIdx_append_self]
      simp
    · rw [List.map_map]
      refine (List.map_congr_left ?_).trans (List.map_id _)
      intro r hr
      have hlen := hD r hr
      simp only [Function.comp, id]
      rw [← hlen, eraseIdx_append_self]
      simp
  simp only [deduplicate_dataframe, e1, e2, e3, e4, e5, List.length_map]

/-! ### Claim C1 -/

/-- C1: for every input dataset (well-formed and carrying the five key
columns, as every mapped frame does), the deduplicator keeps, for each
distinct composite key, exactly the first record with that key in original
order (the spec-side first-wins scan `specDedup`), the surviving records form
a subsequence of the (NaN-filled) input records, and the reported
`duplicates_removed` count equals input count minus output count. -/
theorem dedup_first_wins (df : DF) (h : dedupReady df) :
    (deduplicate_dataframe df).1.rows =
      (specDedup (rowKey df.cols) (df.rows.map cleanRow)).map
        (fun r => r.map some) ∧
    List.Sublist (deduplicate_dataframe df).1.rows
      ((df.rows.map cleanRow).map (fun r => r.map some)) ∧
    (deduplicate_dataframe df).2 =
      df.rows.length - (deduplicate_dataframe df).1.rows.length := by
  obtain ⟨hwf, _, _, _, _, _, ho, hm⟩ := h
  rw [dedup_model df hwf ho hm]
  refine ⟨?_, ?_, ?_⟩
  · rw [dedupBy_eq_specDedup]
  · exact List.Sublist.map _ (dedupBy_sublist _ _ _)
  · simp

/-- Witness for C1: the hypotheses hold and the conclusion is delivered at a
concrete three-row frame whose third row duplicates the first. -/
theorem dedup_first_wins_witness :
    (deduplicate_dataframe dfW1).1.rows =
      (specDedup (rowKey dfW1.cols) (dfW1.rows.map cleanRow)).map
        (fun r => r.map some) ∧
    List.Sublist (deduplicate_dataframe dfW1).1.rows
      ((dfW1.rows.map cleanRow).map (fun r => r.map some)) ∧
    (deduplicate_dataframe dfW1).2 =
      dfW1.rows.length - (deduplicate_dataframe dfW1).1.rows.length :=
  dedup_first_wins dfW1 (by decide)

/-! ### Claim C2 -/

/-- C2: the composite key of a record is built exactly as the spec says:
missing/null fields count as empty strings, the owner component is the
trimmed-and-uppercased first and last names joined by a single space and
trimmed again, the mailing component likewise from address, city and state,
and two records collide iff both components agree. -/
theorem dedup_key_construction (cols : List String)
    (r rr : List (Option String)) :
    ownerKeyRow cols (cleanRow r) =
      specOwnerKey ((getCell cols r "First Name").getD "")
        ((getCell cols r "Last Name").getD "") ∧
    mailingKeyRow cols (cleanRow r) =
      specMailingKey ((getCell cols r "Mailing Address").getD "")
        ((getCell cols r "Mailing City").getD "")
        ((getCell cols r "Mailing State").getD "") ∧
    (rowKey cols (cleanRow r) = rowKey cols (cleanRow rr) ↔
      (ownerKeyRow cols (cleanRow r) = ownerKeyRow cols (cleanRow rr) ∧
       mailingKeyRow cols (cleanRow r) = mailingKeyRow cols (cleanRow rr))) := by
  refine ⟨?_, ?_, ?_⟩
  · unfold ownerKeyRow specOwnerKey
    rw [getStr_cleanRow, getStr_cleanRow, pyStrip_pyUpper, pyStrip_pyUpper]
  · unfold mailingKeyRow specMailingKey
    rw [getStr_cleanRow, getStr_cleanRow, getStr_cleanRow, pyStrip_pyUpper,
      pyStrip_pyUpper, pyStrip_pyUpper]
  · exact Prod.ext_iff

/-- Witness for C2 at a concrete record pair (with a genuinely missing cell). -/
theorem dedup_key_construction_witness :
    ownerKeyRow ["First Name", "Last Name"] (cleanRow [some " bob ", none]) =
      specOwnerKey
        ((getCell ["First Name", "Last Name"] [some " bob ", none]
          "First Name").getD "")
        ((getCell ["First Name", "Last Name"] [some " bob ", none]
          "Last Name").getD "") ∧
    mailingKeyRow ["First Name", "Last Name"] (cleanRow [some " bob ", none]) =
      specMailingKey
        ((getCell ["First Name", "Last Name"] [some " bob ", none]
          "Mailing Address").getD "")
        ((getCell ["First Name", "Last Name"] [some " bob ", none]
          "Mailing City").getD "")
        ((getCell ["First Name", "Last Name"] [some " bob ", none]
          "Mailing State").getD "") ∧
    (rowKey ["First Name", "Last Name"] (cleanRow [some " bob ", none]) =
        rowKey ["First Name", "Last Name"] (cleanRow [some "BOB", some ""]) ↔
      (ownerKeyRow ["First Name", "Last Name"] (cleanRow [some " bob ", none]) =
        ownerKeyRow ["First Name", "Last Name"] (cleanRow [some "BOB", some ""]) ∧
       mailingKeyRow ["First Name", "Last Name"] (cleanRow [some " bob ", none]) =
        mailingKeyRow ["First Name", "Last Name"]
          (cleanRow [some "BOB", some ""]))) :=
  dedup_key_construction ["First Name", "Last Name"] [some " bob ", none]
    [some "BOB", some ""]

/-! ### Claim C6 -/

/-- C6: normalization is uppercase plus outer trim only.  Two records whose
owner-name field differs only by internal whitespace at the same mailing
address produce distinct owner keys (same mailing key) and are NOT
deduplicated: both rows survive and zero duplicates are reported. -/
theorem dedup_internal_whitespace_distinct :
    ownerKeyRow ["First Name", "Last Name", "Mailing Address", "Mailing City",
        "Mailing State"]
      (cleanRow [some "john smith", some "", some "1 MAIN ST", some "AUSTIN",
        some "TX"]) ≠
      ownerKeyRow ["First Name", "Last Name", "Mailing Address", "Mailing City",
          "Mailing State"]
        (cleanRow [some "JOHN   SMITH", some "", some "1 MAIN ST",
          some "AUSTIN", some "TX"]) ∧
    mailingKeyRow ["First Name", "Last Name", "Mailing Address", "Mailing City",
        "Mailing State"]
      (cleanRow [some "john smith", some "", some "1 MAIN ST", some "AUSTIN",
        some "TX"]) =
      mailingKeyRow ["First Name", "Last Name", "Mailing Address",
          "Mailing City", "Mailing State"]
        (cleanRow [some "JOHN   SMITH", some "", some "1 MAIN ST",
          some "AUSTIN", some "TX"]) ∧
    deduplicate_dataframe
      ⟨["First Name", "Last Name", "Mailing Address", "Mailing City",
        "Mailing State"],
       [[some "john smith", some "", some "1 MAIN ST", some "AUSTIN", some "TX"],
        [some "JOHN   SMITH", some "", some "1 MAIN ST", some "AUSTIN",
         some "TX"]]⟩ =
      (⟨["First Name", "Last Name", "Mailing Address", "Mailing City",
         "Mailing State"],
        [[some "john smith", some "", some "1 MAIN ST", some "AUSTIN",
          some "TX"],
         [some "JOHN   SMITH", some "", some "1 MAIN ST", some "AUSTIN",
          some "TX"]]⟩, 0) := by
  decide

/-! ### Claim C5 -/

/-- C5: deduplication is idempotent — applying `deduplicate_dataframe` to its
own output returns that output unchanged with zero duplicates removed. -/
theorem dedup_idempotent (df : DF) (h : dedupReady df) :
    deduplicate_dataframe (deduplicate_dataframe df).1 =
      ((deduplicate_dataframe df).1, 0) := by
  obtain ⟨hwf, _, _, _, _, _, ho, hm⟩ := h
  have hCwf : ∀ r ∈ df.rows.map cleanRow, r.length = df.cols.length := by
    intro r hr
    obtain ⟨r0, hr0, rfl⟩ := List.mem_map.mp hr
    simpa [cleanRow] using hwf r0 hr0
  have hout1 : (deduplicate_dataframe df).1 =
      ⟨df.cols, (dedupBy (rowKey df.cols) (df.rows.map cleanRow) []).map
        (fun r => r.map some)⟩ := by
    rw [dedup_model df hwf ho hm]
  rw [hout1]
  have hwf2 : ∀ r ∈ (⟨df.cols,
      (dedupBy (rowKey df.cols) (df.rows.map cleanRow) []).map
        (fun r => r.map some)⟩ : DF).rows,
      r.length = (⟨df.cols,
      (dedupBy (rowKey df.cols) (df.rows.map cleanRow) []).map
        (fun r => r.map some)⟩ : DF).cols.length := by
    intro r hr
    obtain ⟨d, hd, rfl⟩ := List.mem_map.mp hr
    simpa using hCwf d (dedupBy_mem hd)
  rw [dedup_model _ hwf2 ho hm]
  have hclean : ((dedupBy (rowKey df.cols) (df.rows.map cleanRow) []).map
      (fun r => r.map some)).map cleanRow =
      dedupBy (rowKey df.cols) (df.rows.map cleanRow) [] := by
    rw [List.map_map]
    refine (List.map_congr_left ?_).trans (List.map_id _)
    intro r hr
    simp [cleanRow, Function.comp_def, List.map_map]
  have hDD : dedupBy (rowKey df.cols)
      (dedupBy (rowKey df.cols) (df.rows.map cleanRow) []) [] =
      dedupBy (rowKey df.cols) (df.rows.map cleanRow) [] := by
    obtain ⟨hp, _⟩ :=
      dedupBy_pairwise_and_unseen (rowKey df.cols) (df.rows.map cleanRow) []
    exact dedupBy_of_pairwise hp (by simp)
  simp only [hclean, hDD, List.length_map, Nat.sub_self]

/-- Witness for C5 at a concrete frame containing one duplicate pair. -/
theorem dedup_idempotent_witness :
    deduplicate_dataframe (deduplicate_dataframe dfW5).1 =
      ((deduplicate_dataframe dfW5).1, 0) :=
  dedup_idempotent dfW5 (by decide)

/-! ### Claim C10 -/

/-- C10: every surviving record equals the corresponding input record with
`NaN` cells replaced by the empty string, and the output column set equals
the input column set — in particular the two temporary key columns are gone. -/
theorem dedup_output_shape (df : DF) (h : dedupReady df) :
    (deduplicate_dataframe df).1.cols = df.cols ∧
    "_dedup_owner" ∉ (deduplicate_dataframe df).1.cols ∧
    "_dedup_mailing" ∉ (deduplicate_dataframe df).1.cols ∧
    ∀ r ∈ (deduplicate_dataframe df).1.rows,
      ∃ r0 ∈ df.rows, r = r0.map (fun c => some (c.getD "")) := by
  obtain ⟨hwf, _, _, _, _, _, ho, hm⟩ := h
  rw [dedup_model df hwf ho hm]
  refine ⟨rfl, ho, hm, ?_⟩
  intro r hr
  obtain ⟨d, hd, rfl⟩ := List.mem_map.mp hr
  obtain ⟨r0, hr0, rfl⟩ := List.mem_map.mp (dedupBy_mem hd)
  exact ⟨r0, hr0, by simp [cleanRow, List.map_map, Function.comp_def]⟩

/-- Witness for C10 at a concrete frame with a NaN cell and a duplicate. -/
theorem dedup_output_shape_witness :
    (deduplicate_dataframe dfW10).1.cols = dfW10.cols ∧
    "_dedup_owner" ∉ (deduplicate_dataframe dfW10).1.cols ∧
    "_dedup_mailing" ∉ (deduplicate_dataframe dfW10).1.cols ∧
    ∀ r ∈ (deduplicate_dataframe dfW10).1.rows,
      ∃ r0 ∈ dfW10.rows, r = r0.map (fun c => some (c.getD "")) :=
  dedup_output_shape dfW10 (by decide)

/-! ### Claim C7 -/

/-- C7 counterexample: the reference code `":"` is non-empty but sanitizes to
the empty string; the generator nevertheless takes the non-empty branch and
emits a DOUBLE underscore, not the claimed `{dateStamp}_DirectSkip_Import.csv`. -/
theorem generate_filename_sanitized_empty_counterexample :
    replaceSpaces (stripIllegal ":") = "" ∧
    generate_output_filename "20250115" ":" ≠ "20250115_DirectSkip_Import.csv" ∧
    generate_output_filename "20250115" ":" = "20250115__DirectSkip_Import.csv" := by
  decide

/-- C7 amended: only a genuinely empty reference code produces
`{dateStamp}_DirectSkip_Import.csv`; a non-empty code that sanitizes to empty
instead yields `{dateStamp}__DirectSkip_Import.csv` with a double underscore. -/
theorem generate_filename_empty_amended (d c : String) :
    generate_output_filename d "" = d ++ "_DirectSkip_Import.csv" ∧
    (c ≠ "" → replaceSpaces (stripIllegal c) = "" →
      generate_output_filename d c = d ++ "__DirectSkip_Import.csv") := by
  constructor
  · unfold generate_output_filename
    rw [if_pos rfl]
  · intro hc hs
    unfold generate_output_filename
    rw [if_neg hc, hs]
    have h2 : ("_" : String) ++ "_DirectSkip_Import.csv" =
        "__DirectSkip_Import.csv" := by decide
    rw [String.append_empty, String.append_assoc, h2]

/-- Witness for C7 (amended): both branches evaluated at 2025-01-15, with the
empty code and with the code `":"` that sanitizes to empty. -/
theorem generate_filename_empty_amended_witness :
    generate_output_filename "20250115" "" =
      "20250115" ++ "_DirectSkip_Import.csv" ∧
    generate_output_filename "20250115" ":" =
      "20250115" ++ "__DirectSkip_Import.csv" :=
  ⟨(generate_filename_empty_amended "20250115" ":").1,
   (generate_filename_empty_amended "20250115" ":").2 (by decide) (by decide)⟩

/-! ### Claim C8 -/

/-- C8: for a non-empty reference code (in particular one that stays
non-empty after sanitization) the generator deletes every illegal character,
turns each space into an underscore, and formats
`{dateStamp}_{sanitizedCode}_DirectSkip_Import.csv`; the sanitized code
contains no illegal character and no space, and `PROJ:2025/001` on 2025-01-15
yields `20250115_PROJ2025001_DirectSkip_Import.csv`. -/
theorem generate_filename_nonempty (d c : String) (h1 : c ≠ "")
    (h2 : replaceSpaces (stripIllegal c) ≠ "") :
    generate_output_filename d c =
      d ++ "_" ++ replaceSpaces (stripIllegal c) ++ "_DirectSkip_Import.csv" ∧
    (∀ ch ∈ (replaceSpaces (stripIllegal c)).data,
      illegalFilenameChar ch = false ∧ ch ≠ ' ') ∧
    generate_output_filename "20250115" "PROJ:2025/001" =
      "20250115_PROJ2025001_DirectSkip_Import.csv" := by
  refine ⟨?_, ?_, by decide⟩
  · unfold generate_output_filename
    rw [if_neg h1]
  · intro ch hch
    unfold replaceSpaces at hch
    obtain ⟨c0, hc0, rfl⟩ := List.mem_map.mp hch
    unfold stripIllegal at hc0
    have hc0f := List.mem_filter.mp hc0
    have hc0i : illegalFilenameChar c0 = false := by
      simpa using hc0f.2
    by_cases hsp : c0 = ' '
    · subst hsp
      decide
    · have hbeq : (c0 == ' ') = false := by
        simp [hsp]
      rw [hbeq]
      simp only [Bool.false_eq_true, if_false]
      exact ⟨hc0i, hsp⟩

/-- Witness for C8 at `PROJ:2025/001` on 2025-01-15. -/
theorem generate_filename_nonempty_witness :
    generate_output_filename "20250115" "PROJ:2025/001" =
      "20250115" ++ "_" ++ replaceSpaces (stripIllegal "PROJ:2025/001") ++
        "_DirectSkip_Import.csv" :=
  (generate_filename_nonempty "20250115" "PROJ:2025/001" (by decide)
    (by decide)).1

/-! ### Claim C9 -/

/-- C9: the validator reports valid exactly when every mapping source field
is present among the dataset's columns, the missing list is exactly the set
of mapping source fields absent from the columns, and a dataset with zero
records but all required fields is valid. -/
theorem validate_characterization (df : DF) :
    (validate_input_file df = true ↔
      ∀ c ∈ COLUMN_MAPPING.map (fun p => p.1), c ∈ df.cols) ∧
    (∀ c, c ∈ missing_columns df ↔
      (c ∈ COLUMN_MAPPING.map (fun p => p.1) ∧ c ∉ df.cols)) ∧
    (df.rows = [] → (∀ c ∈ COLUMN_MAPPING.map (fun p => p.1), c ∈ df.cols) →
      validate_input_file df = true) := by
  have hmiss : ∀ c, c ∈ missing_columns df ↔
      (c ∈ COLUMN_MAPPING.map (fun p => p.1) ∧ c ∉ df.cols) := by
    intro c
    unfold missing_columns
    rw [List.mem_filter]
    simp
  have hval : validate_input_file df = true ↔
      ∀ c ∈ COLUMN_MAPPING.map (fun p => p.1), c ∈ df.cols := by
    unfold validate_input_file
    rw [List.isEmpty_iff]
    constructor
    · intro h c hc
      by_contra hnc
      have hin : c ∈ missing_columns df := (hmiss c).mpr ⟨hc, hnc⟩
      rw [h] at hin
      exact absurd hin (List.not_mem_nil c)
    · intro h
      cases hmc : missing_columns df with
      | nil => rfl
      | cons x xs =>
        have hx : x ∈ missing_columns df := by
          rw [hmc]
          exact List.mem_cons_self _ _
        have hx2 := (hmiss x).mp hx
        exact absurd (h x hx2.1) hx2.2
  exact ⟨hval, hmiss, fun _ hc => hval.mpr hc⟩

/-- Witness for C9: a dataset with all ten source columns and zero rows is
declared valid. -/
theorem validate_characterization_witness :
    validate_input_file
      ⟨["OWNER_1_FIRST", "OWNER_1_LAST", "OWNER_ADDRESS", "OWNER_CITY",
        "OWNER_STATE", "OWNER_ZIP", "PROP_ADDRESS", "PROP_CITY", "PROP_STATE",
        "PROP_ZIP"], []⟩ = true :=
  (validate_characterization _).2.2 rfl (by decide)

/-! ### Claim C3 -/

/-- C3 (code bug): on an input whose FIRST mapping source `OWNER_1_FIRST` is
absent, the mapper still emits the 11 declared output columns, but the
scalar assignment for the missing first column fixes an empty pandas index
and every later Series assignment aligns to it, so a one-row input yields a
ZERO-row mapped frame — the record count is not preserved, contradicting the
claim and the spec's guarantee. -/
theorem mapColumns_first_source_missing :
    (mapColumns ⟨["OWNER_1_LAST"], [[some "SMITH"]]⟩ "R").cols =
      ["First Name", "Last Name", "Mailing Address", "Mailing City",
       "Mailing State", "Mailing Zip", "Property Address", "Property City",
       "Property State", "Property Zip", "Custom Field 1"] ∧
    (⟨["OWNER_1_LAST"], [[some "SMITH"]]⟩ : DF).rows.length = 1 ∧
    (mapColumns ⟨["OWNER_1_LAST"], [[some "SMITH"]]⟩ "R").rows.length = 0 := by
  decide

/-! ### Claim C4 -/

theorem getCell_concat {cols : List String} {row : List (Option String)}
    {name : String} {v : Option String}
    (h : findCol cols name = some row.length) :
    getCell cols (row ++ [v]) name = v := by
  unfold getCell
  rw [h]
  simp only [Option.some_bind]
  rw [List.getElem?_concat_length]
  rfl

theorem mapColumns_rows_form (df : DF) (code : String) :
    ∀ r ∈ (mapColumns df code).rows, ∃ r0,
      r = COLUMN_MAPPING.map
            (fun p => if p.1 ∈ df.cols then getCell df.cols r0 p.1
                      else some "") ++ [some code] := by
  intro r hr
  obtain ⟨r0, hr0, rfl⟩ := List.mem_map.mp hr
  exact ⟨r0, rfl⟩

theorem mapColumns_ready (df : DF) (code : String) :
    dedupReady (mapColumns df code) := by
  have hcols : (mapColumns df code).cols =
      ["First Name", "Last Name", "Mailing Address", "Mailing City",
       "Mailing State", "Mailing Zip", "Property Address", "Property City",
       "Property State", "Property Zip", "Custom Field 1"] := rfl
  refine ⟨?_, by rw [hcols]; decide, by rw [hcols]; decide,
    by rw [hcols]; decide, by rw [hcols]; decide, by rw [hcols]; decide,
    by rw [hcols]; decide, by rw [hcols]; decide⟩
  intro row hrow
  obtain ⟨r0, hform⟩ := mapColumns_rows_form df code row hrow
  subst hform
  simp [mapColumns, COLUMN_MAPPING]

/-- C4: every record of the pipeline's output dataset carries the supplied
reference code in its `Custom Field 1` column, exactly. -/
theorem custom_field_constant (df : DF) (code : String) :
    ∀ r ∈ (process_csv df code).1.rows,
      getCell (process_csv df code).1.cols r "Custom Field 1" = some code := by
  obtain ⟨hwfM, _, _, _, _, _, hoM, hmM⟩ := mapColumns_ready df code
  have hmodel := dedup_model (mapColumns df code) hwfM hoM hmM
  intro r hr
  have hproc : process_csv df code = deduplicate_dataframe (mapColumns df code) :=
    rfl
  rw [hproc] at hr ⊢
  have hcolseq : (deduplicate_dataframe (mapColumns df code)).1.cols =
      (mapColumns df code).cols := by
    rw [hmodel]
  rw [hcolseq]
  rw [hmodel] at hr
  obtain ⟨d, hd, rfl⟩ := List.mem_map.mp hr
  obtain ⟨m0, hm0, rfl⟩ := List.mem_map.mp (dedupBy_mem hd)
  obtain ⟨r0, hform⟩ := mapColumns_rows_form df code m0 hm0
  subst hform
  have hsplit : (cleanRow (COLUMN_MAPPING.map
      (fun p => if p.1 ∈ df.cols then getCell df.cols r0 p.1 else some "") ++
      [some code])).map some =
      ((cleanRow (COLUMN_MAPPING.map
        (fun p => if p.1 ∈ df.cols then getCell df.cols r0 p.1 else some ""))).map
          some) ++ [some code] := by
    simp [cleanRow]
  rw [hsplit]
  apply getCell_concat
  have hlen : (((cleanRow (COLUMN_MAPPING.map
      (fun p => if p.1 ∈ df.cols then getCell df.cols r0 p.1 else some ""))).map
        some)).length = 10 := by
    simp [cleanRow, COLUMN_MAPPING]
  rw [hlen]
  have hcols2 : (mapColumns df code).cols =
      ["First Name", "Last Name", "Mailing Address", "Mailing City",
       "Mailing State", "Mailing Zip", "Property Address", "Property City",
       "Property State", "Property Zip", "Custom Field 1"] := rfl
  rw [hcols2]
  decide

/-- Witness for C4: the single surviving record of a one-row run carries the
reference code. -/
theorem custom_field_constant_witness :
    getCell (process_csv ⟨["OWNER_1_FIRST"], [[some "Bob"]]⟩ "PROJ-9").1.cols
      [some "Bob", some "", some "", some "", some "", some "", some "",
       some "", some "", some "", some "PROJ-9"] "Custom Field 1" =
      some "PROJ-9" :=
  custom_field_constant ⟨["OWNER_1_FIRST"], [[some "Bob"]]⟩ "PROJ-9"
    [some "Bob", some "", some "", some "", some "", some "", some "",
     some "", some "", some "", some "PROJ-9"] (by decide)
